import Mathlib

/-!
Shallow embedding of `src/cli.ts` from youtube-subscription-sync-cli:
the dual-phase OAuth orchestration, the paginated subscription
enumerator, and the concurrent subscription replicator.
-/

namespace YtSync

/- Data model, from the type declarations in cli.ts (lines 19-49). -/

structure SubscriptionSnippetResource where
  kind : String
  channelId : String
deriving DecidableEq

structure SubscriptionSnippet where
  title : String
  resourceId : SubscriptionSnippetResource
deriving DecidableEq

structure Subscription where
  id : String
  snippet : SubscriptionSnippet
deriving DecidableEq

/-- A page response body.  `nextPageToken` and `items` may each be absent
(`undefined` in the JSON), hence `Option`. -/
structure SubscriptionsResponse where
  nextPageToken : Option String
  items : Option (List Subscription)
deriving DecidableEq

/-- Outcome of one `fetch` of the subscriptions list endpoint:
either a 2xx response with a parsed body (`response.ok`), or a
non-success status. -/
inductive FetchResult where
  | ok (body : SubscriptionsResponse)
  | err (status : Nat)
deriving DecidableEq

/-- JavaScript truthiness of a possibly-absent string:
`undefined` and the empty string are falsy, every other string truthy. -/
def strTruthy : Option String → Bool
  | none => false
  | some s => s != ""

/-- The page token actually embedded in the request URL:
cli.ts line 150 appends `&pageToken=...` only when `nextPage` is truthy. -/
def requestTok (tok : Option String) : Option String :=
  if strTruthy tok then tok else none

/-- cli.ts lines 170-172: `subscriptions.concat(body.items?.map(item => item.snippet))`.
When `items` is absent the optional chain yields `undefined` and
`Array.prototype.concat` appends it as a SINGLE element, so the element
type of the accumulated array is `SubscriptionSnippet | undefined`,
modelled as `Option SubscriptionSnippet`. -/
def concatItems : Option (List Subscription) → List (Option SubscriptionSnippet)
  | none => [none]
  | some items => items.map (fun it => some it.snippet)

/-- The do/while loop of `getAllSubscriptions` (cli.ts lines 147-173),
step-indexed by `fuel` (number of loop iterations the run is allowed;
`none` means the loop was still running after `fuel` iterations).
`env i t` is the provider's response to the i-th request, which carries
page token `t`.  On a non-success response the accumulated list is
returned as is (lines 160-167).  The returned `Nat` counts the page
requests issued. -/
def runLoop (env : Nat → Option String → FetchResult) :
    Nat → Nat → Option String → List (Option SubscriptionSnippet) →
    Option (List (Option SubscriptionSnippet) × Nat)
  | 0, _, _, _ => none
  | fuel+1, i, tok, acc =>
    match env i (requestTok tok) with
    | FetchResult.err _ => some (acc, i+1)
    | FetchResult.ok body =>
      let acc2 := acc ++ concatItems body.items
      if strTruthy body.nextPageToken then
        runLoop env fuel (i+1) body.nextPageToken acc2
      else
        some (acc2, i+1)

/-- cli.ts lines 142-175: `nextPage` starts `undefined`, the accumulator
empty, and the do/while body always runs at least once. -/
def getAllSubscriptions (env : Nat → Option String → FetchResult) (fuel : Nat) :
    Option (List (Option SubscriptionSnippet) × Nat) :=
  runLoop env fuel 0 none []

/- Test-harness descriptions of response streams (environment assumptions
of the spec's enumeration properties, not code). -/

/-- A well-formed successful page chain: at least one page, every page but
the last carries a truthy continuation token, the last does not. -/
def PagesChainOk : List SubscriptionsResponse → Bool
  | [] => false
  | [r] => !strTruthy r.nextPageToken
  | r :: s :: rest => strTruthy r.nextPageToken && PagesChainOk (s :: rest)

/-- Every page in the list carries a truthy continuation token. -/
def PagesAllTruthy : List SubscriptionsResponse → Bool
  | [] => true
  | r :: rest => strTruthy r.nextPageToken && PagesAllTruthy rest

/-- The concatenation, in page order, of each page's contribution to the
accumulated sequence. -/
def collectAll : List SubscriptionsResponse → List (Option SubscriptionSnippet)
  | [] => []
  | r :: rest => concatItems r.items ++ collectAll rest

/-- A provider that answers every request with the same truthy
continuation token: the malformed repeated-token stream. -/
def repeatTokenEnv : Nat → Option String → FetchResult :=
  fun _ _ => FetchResult.ok { nextPageToken := some "x", items := some [] }

/- Subscription Replicator, cli.ts lines 177-192 and 220-240. -/

/-- Per-item log notice. `done` is the aggregate completion signal
("Done!", line 190), emitted once after `Promise.all` settles. -/
inductive RepLog where
  | subscribed (title : String)
  | failed (title : String)
  | done
deriving DecidableEq

/-- The request body built by `subscribeChannel` (cli.ts lines 224-228). -/
structure SubscribeRequestBody where
  resourceId : SubscriptionSnippetResource
deriving DecidableEq

def subscribeChannelBody (sub : SubscriptionSnippet) : SubscribeRequestBody :=
  { resourceId := sub.resourceId }

/-- The per-item notice produced when item `i` settles (cli.ts lines
182-187): classification is solely by `response.ok` (`outcome i`), and the
notice names the channel title.  `none` when `i` is out of range or the
element is `undefined`. -/
def itemNotice (outcome : Nat → Bool) (subs : List (Option SubscriptionSnippet))
    (i : Nat) : Option RepLog :=
  match subs.get? i with
  | some (some sub) =>
    some (if outcome i then RepLog.subscribed sub.title else RepLog.failed sub.title)
  | _ => none

/-- cli.ts lines 177-192.  All creation requests are issued concurrently
and may settle in any `order` (a permutation of the indices); one notice
per settled item; "Done!" and `process.exit(0)` only after all settle.
Result: `(requests issued, log sequence, exit code)`.  If any element of
`subs` is `undefined`, `subscribeChannel` dereferences
`subscription.resourceId` on `undefined` and throws, the aggregate
promise rejects, and neither the completion signal nor the exit is
reached: the run produces no normal result (`none`). -/
def loginDestination (outcome : Nat → Bool) (subs : List (Option SubscriptionSnippet))
    (order : List Nat) : Option (List SubscribeRequestBody × List RepLog × Nat) :=
  if subs.all Option.isSome then
    some (subs.filterMap (fun o => o.map subscribeChannelBody),
      order.filterMap (itemNotice outcome subs) ++ [RepLog.done], 0)
  else
    none

/- Session Orchestrator state machine, cli.ts lines 14-17, 99-140, 242-267. -/

inductive ApplicationState where
  | login_source
  | login_destination
deriving DecidableEq

/-- A Koa query parameter value: a single string, or an array of strings
when the parameter is repeated (`absent` is `Option.none` one level up). -/
inductive QueryVal where
  | str (s : String)
  | arr (vals : List String)
deriving DecidableEq

/-- JavaScript truthiness of a query value: `undefined` and `""` falsy;
any array (even empty) truthy. -/
def queryTruthy : Option QueryVal → Bool
  | none => false
  | some (QueryVal.str s) => s != ""
  | some (QueryVal.arr _) => true

/-- Strict equality `responseState === oauthState` of a query value
against the token string: an array is never `===` a string. -/
def stateValEq : Option QueryVal → String → Bool
  | some (QueryVal.str s), tok => s == tok
  | _, _ => false

/-- The module-level mutable state of cli.ts (lines 14-17).  `nonce`
drives the model of `uuid()`: each call returns a value never produced
before. -/
structure SysState where
  applicationState : ApplicationState
  oauthState : String
  nonce : Nat
  subscriptions : List (Option SubscriptionSnippet)
deriving DecidableEq

/-- Model of `uuid()` outputs: the n-th generated token.  Injective and
never empty, reflecting uniqueness and non-emptiness of real UUIDs. -/
def uuidStr (n : Nat) : String := String.mk (List.replicate (n+1) 'u')

structure CallbackRequest where
  code : Option QueryVal
  state : Option QueryVal
deriving DecidableEq

/-- Environment oracles consumed while one callback is processed:
the token endpoint's answer per code, the page stream for enumeration,
the fuel bound under which the enumeration loop is observed, and the
user's answer to the destination confirmation prompt. -/
structure CallbackEnv where
  exchange : String → Option String
  pages : Nat → Option String → FetchResult
  enumFuel : Nat
  confirmDestination : Bool

/-- Observable side effects of processing one callback. -/
inductive Effect where
  | respond (msg : String)
  | exchangeReq (code : String)
  | enumerate
  | promptDestination
  | openAuthUrl (stateParam : String)
  | replicate (subs : List (Option SubscriptionSnippet))
  | exit (code : Nat)
deriving DecidableEq

def tryAgainMsg : String := "Failed to login with YouTube. Please try again."
def invalidStateMsg : String := "Failed to login with YouTube. Invalid state."
def noTokenMsg : String := "Failed to login with YouTube. No access token received."
def checkTerminalMsg : String :=
  "Please check the terminal for the next steps. You can close this window now."

/-- `startLogin` (cli.ts lines 121-126): regenerate the anti-forgery
token, then open the authorization URL carrying it. -/
def startLoginStep (s : SysState) : SysState × Effect :=
  ({ s with oauthState := uuidStr s.nonce, nonce := s.nonce + 1 },
   Effect.openAuthUrl (uuidStr s.nonce))

/-- The `/callback` handler (cli.ts lines 242-267) together with the
asynchronous continuation it fires (`loginSource` lines 128-140 with
`promptDestinationLogin` lines 99-111, or `loginDestination`), run to
quiescence under the single-threaded event loop.  `none` means the
enumeration loop was still running past `env.enumFuel` iterations. -/
def handleCallback (env : CallbackEnv) (s : SysState) (req : CallbackRequest) :
    Option (SysState × List Effect) :=
  match req.code with
  | some (QueryVal.str c) =>
    if c == "" then
      -- `!code` (line 245): empty string is falsy
      some (s, [Effect.respond tryAgainMsg])
    else if !(queryTruthy req.state) || !(stateValEq req.state s.oauthState) then
      -- line 249: `!responseState || responseState !== oauthState`
      some (s, [Effect.respond invalidStateMsg])
    else
      match env.exchange c with
      | none => some (s, [Effect.exchangeReq c, Effect.respond noTokenMsg])
      | some _ =>
        match s.applicationState with
        | ApplicationState.login_source =>
          match getAllSubscriptions env.pages env.enumFuel with
          | none => none
          | some (subs, _) =>
            if subs.length == 0 then
              -- lines 132-137: fatal precondition, exit status 1
              some ({ s with subscriptions := subs },
                [Effect.exchangeReq c, Effect.enumerate, Effect.respond checkTerminalMsg,
                 Effect.exit 1])
            else if !env.confirmDestination then
              -- lines 106-108: declining the prompt exits with status 0
              some ({ s with subscriptions := subs },
                [Effect.exchangeReq c, Effect.enumerate, Effect.respond checkTerminalMsg,
                 Effect.promptDestination, Effect.exit 0])
            else
              -- lines 109-110: transition, then startLogin regenerates the token
              some ((startLoginStep
                  { s with applicationState := ApplicationState.login_destination,
                           subscriptions := subs }).1,
                [Effect.exchangeReq c, Effect.enumerate, Effect.respond checkTerminalMsg,
                 Effect.promptDestination,
                 (startLoginStep
                  { s with applicationState := ApplicationState.login_destination,
                           subscriptions := subs }).2])
        | ApplicationState.login_destination =>
          some (s, [Effect.exchangeReq c, Effect.replicate s.subscriptions,
            Effect.respond checkTerminalMsg])
  | _ =>
    -- line 245: `!code || typeof code !== "string"` (absent, empty, or array)
    some (s, [Effect.respond tryAgainMsg])

/-- The state reached by processing one callback, discarding effects. -/
def stepState (s : SysState) (e : CallbackEnv × CallbackRequest) : Option SysState :=
  (handleCallback e.1 s e.2).map Prod.fst

/-- Process a sequence of callbacks. -/
def runTrace : SysState → List (CallbackEnv × CallbackRequest) → Option SysState
  | s, [] => some s
  | s, e :: rest =>
    match stepState s e with
    | none => none
    | some s2 => runTrace s2 rest

/-- The module initialisation, cli.ts lines 14-17. -/
def initState : SysState :=
  { applicationState := ApplicationState.login_source
  , oauthState := uuidStr 0
  , nonce := 1
  , subscriptions := [] }

/-- The first rejection condition of the callback handler restricted to
the spec's wording: the `code` query parameter is missing or is not a
single string value (cli.ts line 245 additionally rejects the empty
string via JS falsiness). -/
def codeMissingOrNotString : Option QueryVal → Bool
  | some (QueryVal.str _) => false
  | _ => true

/-- The second rejection condition of the callback handler (cli.ts line
249): `!responseState || responseState !== oauthState`. -/
def stateRejected (q : Option QueryVal) (tok : String) : Bool :=
  !(queryTruthy q) || !(stateValEq q tok)

/- Concrete fixtures used by the witnesses. -/

def sampleSub (i t ch : String) : Subscription :=
  { id := i
  , snippet := { title := t, resourceId := { kind := "youtube#channel", channelId := ch } } }

/-- A provider serving the pages of `resps` in order and failing with
`status` once they are exhausted. -/
def pagesEnv (resps : List SubscriptionsResponse) (status : Nat) :
    Nat → Option String → FetchResult :=
  fun i _ =>
    match resps.get? i with
    | some r => FetchResult.ok r
    | none => FetchResult.err status

def c3Pages : List SubscriptionsResponse :=
  [ { nextPageToken := some "t1"
    , items := some [sampleSub "i1" "Alpha" "c1", sampleSub "i2" "Beta" "c2"] }
  , { nextPageToken := none
    , items := some [sampleSub "i3" "Gamma" "c3"] } ]

def c4Pages : List SubscriptionsResponse :=
  [ { nextPageToken := some "t1"
    , items := some [sampleSub "i1" "Alpha" "c1"] } ]

def emptyPage : SubscriptionsResponse :=
  { nextPageToken := none, items := some [] }

def noItemsPage : SubscriptionsResponse :=
  { nextPageToken := none, items := none }

/-- A callback environment that always exchanges successfully and whose
source enumeration sees a single empty page. -/
def emptySourceEnv : CallbackEnv :=
  { exchange := fun _ => some "token"
  , pages := pagesEnv [emptyPage] 404
  , enumFuel := 1
  , confirmDestination := true }

/-- A callback environment whose source enumeration sees one page with
one subscription. -/
def oneSubEnv : CallbackEnv :=
  { exchange := fun _ => some "token"
  , pages := pagesEnv
      [ { nextPageToken := none, items := some [sampleSub "i1" "Alpha" "c1"] } ] 404
  , enumFuel := 1
  , confirmDestination := true }

def c8CapturedSub : Option SubscriptionSnippet :=
  some { title := "Alpha"
       , resourceId := { kind := "youtube#channel", channelId := "c1" } }

/-- The state right after the transition to the destination phase when
the source enumeration captured exactly `c8CapturedSub`. -/
def c8DestState : SysState :=
  { applicationState := ApplicationState.login_destination
  , oauthState := uuidStr 1
  , nonce := 2
  , subscriptions := [c8CapturedSub] }

/-- Five collected subscriptions for the replication scenario. -/
def c2Subs : List (Option SubscriptionSnippet) :=
  [ some { title := "A", resourceId := { kind := "youtube#channel", channelId := "c1" } }
  , some { title := "B", resourceId := { kind := "youtube#channel", channelId := "c2" } }
  , some { title := "C", resourceId := { kind := "youtube#channel", channelId := "c3" } }
  , some { title := "D", resourceId := { kind := "youtube#channel", channelId := "c4" } }
  , some { title := "E", resourceId := { kind := "youtube#channel", channelId := "c5" } } ]

/- Helper lemmas. -/

theorem collectAll_length (resps : List SubscriptionsResponse) :
    (collectAll resps).length
      = (resps.map (fun r => (concatItems r.items).length)).sum := by
  induction resps with
  | nil => simp [collectAll]
  | cons r rest ih => simp [collectAll, ih]

theorem runLoop_pages (resps : List SubscriptionsResponse) :
    ∀ (env : Nat → Option String → FetchResult) (i0 : Nat) (tok : Option String)
      (acc : List (Option SubscriptionSnippet)) (fuel : Nat),
      (∀ j r, resps.get? j = some r → ∀ t, env (i0 + j) t = FetchResult.ok r) →
      PagesChainOk resps = true →
      resps.length ≤ fuel →
      runLoop env fuel i0 tok acc
        = some (acc ++ collectAll resps, i0 + resps.length) := by
  induction resps with
  | nil =>
    intro env i0 tok acc fuel henv hchain hfuel
    simp [PagesChainOk] at hchain
  | cons r rest ih =>
    intro env i0 tok acc fuel henv hchain hfuel
    obtain ⟨f, rfl⟩ : ∃ f, fuel = f + 1 := ⟨fuel - 1, by simp at hfuel; omega⟩
    have h0 : env i0 (requestTok tok) = FetchResult.ok r := by
      have h := henv 0 r (by simp) (requestTok tok)
      simpa using h
    cases rest with
    | nil =>
      have hlast : strTruthy r.nextPageToken = false := by
        simpa [PagesChainOk] using hchain
      simp [runLoop, h0, hlast, collectAll]
    | cons s rest2 =>
      have htr : strTruthy r.nextPageToken = true := by
        have h := hchain
        simp [PagesChainOk] at h
        exact h.1
      have hch2 : PagesChainOk (s :: rest2) = true := by
        have h := hchain
        simp only [PagesChainOk, Bool.and_eq_true] at h
        exact h.2
      have henv2 : ∀ j r2, (s :: rest2).get? j = some r2 →
          ∀ t, env (i0 + 1 + j) t = FetchResult.ok r2 := by
        intro j r2 hj t
        have h := henv (j+1) r2 (by simpa using hj) t
        have harith : i0 + (j + 1) = i0 + 1 + j := by omega
        rwa [harith] at h
      have hrec := ih env (i0 + 1) r.nextPageToken (acc ++ concatItems r.items) f
        henv2 hch2 (by simp at hfuel ⊢; omega)
      simp only [runLoop, h0, htr, if_true]
      rw [hrec]
      simp [collectAll, List.append_assoc]
      omega

theorem runLoop_failStop (resps : List SubscriptionsResponse) :
    ∀ (env : Nat → Option String → FetchResult) (i0 : Nat) (tok : Option String)
      (acc : List (Option SubscriptionSnippet)) (fuel status : Nat),
      (∀ j r, resps.get? j = some r → ∀ t, env (i0 + j) t = FetchResult.ok r) →
      (∀ t, env (i0 + resps.length) t = FetchResult.err status) →
      PagesAllTruthy resps = true →
      resps.length + 1 ≤ fuel →
      runLoop env fuel i0 tok acc
        = some (acc ++ collectAll resps, i0 + resps.length + 1) := by
  induction resps with
  | nil =>
    intro env i0 tok acc fuel status henv herr htr hfuel
    obtain ⟨f, rfl⟩ : ∃ f, fuel = f + 1 := ⟨fuel - 1, by omega⟩
    have h0 : env i0 (requestTok tok) = FetchResult.err status := by
      have h := herr (requestTok tok)
      simpa using h
    simp [runLoop, h0, collectAll]
  | cons r rest ih =>
    intro env i0 tok acc fuel status henv herr htr hfuel
    obtain ⟨f, rfl⟩ : ∃ f, fuel = f + 1 := ⟨fuel - 1, by omega⟩
    have h0 : env i0 (requestTok tok) = FetchResult.ok r := by
      have h := henv 0 r (by simp) (requestTok tok)
      simpa using h
    have htr1 : strTruthy r.nextPageToken = true := by
      have h := htr
      simp only [PagesAllTruthy, Bool.and_eq_true] at h
      exact h.1
    have htr2 : PagesAllTruthy rest = true := by
      have h := htr
      simp only [PagesAllTruthy, Bool.and_eq_true] at h
      exact h.2
    have henv2 : ∀ j r2, rest.get? j = some r2 →
        ∀ t, env (i0 + 1 + j) t = FetchResult.ok r2 := by
      intro j r2 hj t
      have h := henv (j+1) r2 (by simpa using hj) t
      have harith : i0 + (j + 1) = i0 + 1 + j := by omega
      rwa [harith] at h
    have herr2 : ∀ t, env (i0 + 1 + rest.length) t = FetchResult.err status := by
      intro t
      have h := herr t
      have harith : i0 + (r :: rest).length = i0 + 1 + rest.length := by
        simp
        omega
      rwa [harith] at h
    have hrec := ih env (i0 + 1) r.nextPageToken (acc ++ concatItems r.items) f status
      henv2 herr2 htr2 (by simp at hfuel ⊢; omega)
    simp only [runLoop, h0, htr1, if_true]
    rw [hrec]
    simp [collectAll, List.append_assoc]
    omega

theorem runLoop_repeatToken_none (fuel : Nat) :
    ∀ (i : Nat) (tok : Option String) (acc : List (Option SubscriptionSnippet)),
      runLoop repeatTokenEnv fuel i tok acc = none := by
  induction fuel with
  | zero => intro i tok acc; rfl
  | succ f ih =>
    intro i tok acc
    have htr : strTruthy (some "x") = true := by decide
    simp [runLoop, repeatTokenEnv, htr, ih]

theorem uuidStr_ne_of_lt {j n : Nat} (h : j < n) : uuidStr j ≠ uuidStr n := by
  intro heq
  have hlen := congrArg (fun s => s.data.length) heq
  simp [uuidStr] at hlen
  omega

theorem uuidStr_ne_empty (n : Nat) : uuidStr n ≠ "" := by
  intro heq
  have hlen := congrArg (fun s => s.data.length) heq
  simp [uuidStr] at hlen

theorem length_filterMap_of_isSome {α β : Type} (f : α → Option β) :
    ∀ l : List α, (∀ a ∈ l, (f a).isSome) → (l.filterMap f).length = l.length := by
  intro l
  induction l with
  | nil => intro _; rfl
  | cons a rest ih =>
    intro h
    have ha : (f a).isSome := h a (by simp)
    obtain ⟨b, hb⟩ := Option.isSome_iff_exists.mp ha
    have hrest := ih (fun x hx => h x (by simp [hx]))
    simp [List.filterMap_cons, hb, hrest]

/- Claim theorems. -/

/-- C3: for every sequence of k successful pages of sizes s1..sk (each
≤ 50), where every page except the last carries a continuation token,
`getAllSubscriptions` returns a sequence whose length equals s1+...+sk
and whose elements appear in page order with each page's internal item
order preserved (`collectAll` concatenates each page's items, mapped to
their snippets, in page order). -/
theorem c3_enumeration_roundtrip
    (resps : List SubscriptionsResponse) (env : Nat → Option String → FetchResult)
    (fuel : Nat)
    (henv : ∀ j r, resps.get? j = some r → ∀ t, env j t = FetchResult.ok r)
    (hchain : PagesChainOk resps = true)
    (hitems : ∀ r ∈ resps, ∃ l, r.items = some l)
    (hsize : ∀ r ∈ resps, (Option.getD r.items []).length ≤ 50)
    (hfuel : resps.length ≤ fuel) :
    getAllSubscriptions env fuel = some (collectAll resps, resps.length)
      ∧ (collectAll resps).length
          = (resps.map (fun r => (Option.getD r.items []).length)).sum := by
  constructor
  · have henv0 : ∀ j r, resps.get? j = some r →
        ∀ t, env (0 + j) t = FetchResult.ok r := by
      intro j r hj t
      simpa using henv j r hj t
    have h := runLoop_pages resps env 0 none [] fuel henv0 hchain hfuel
    simpa [getAllSubscriptions] using h
  · rw [collectAll_length]
    congr 1
    apply List.map_congr_left
    intro r hr
    obtain ⟨l, hl⟩ := hitems r hr
    simp [hl, concatItems]

/-- C3 witness: two pages of sizes 2 and 1, the first carrying token
"t1", collected into the three snippets in order with 2 requests. -/
theorem c3_enumeration_roundtrip_witness :
    getAllSubscriptions (pagesEnv c3Pages 404) 2
        = some (collectAll c3Pages, c3Pages.length)
      ∧ (collectAll c3Pages).length
          = (c3Pages.map (fun r => (Option.getD r.items []).length)).sum := by
  have h := c3_enumeration_roundtrip c3Pages (pagesEnv c3Pages 404) 2
    (by intro j r hj t
        rw [List.get?_eq_getElem?] at hj
        simp [pagesEnv, hj])
    (by decide)
    (by intro r hr
        simp [c3Pages] at hr
        rcases hr with rfl | rfl
        · exact ⟨_, rfl⟩
        · exact ⟨_, rfl⟩)
    (by decide)
    (by decide)
  simpa using h

/-- C4: if any page request during enumeration returns a non-success
status, `getAllSubscriptions` returns exactly the concatenation of the
items of all successfully fetched pages before the failure, and the
total number of page requests issued is `resps.length + 1`: the failing
request is the last one, no further page is requested. -/
theorem c4_partial_failure_stops
    (resps : List SubscriptionsResponse) (env : Nat → Option String → FetchResult)
    (fuel status : Nat)
    (henv : ∀ j r, resps.get? j = some r → ∀ t, env j t = FetchResult.ok r)
    (herr : ∀ t, env resps.length t = FetchResult.err status)
    (htruthy : PagesAllTruthy resps = true)
    (hfuel : resps.length + 1 ≤ fuel) :
    getAllSubscriptions env fuel = some (collectAll resps, resps.length + 1) := by
  have henv0 : ∀ j r, resps.get? j = some r →
      ∀ t, env (0 + j) t = FetchResult.ok r := by
    intro j r hj t
    simpa using henv j r hj t
  have herr0 : ∀ t, env (0 + resps.length) t = FetchResult.err status := by
    intro t
    simpa using herr t
  have h := runLoop_failStop resps env 0 none [] fuel status henv0 herr0 htruthy hfuel
  simpa [getAllSubscriptions] using h

/-- C4 witness: one successful page of one item, then a 500: the result
is that page's single snippet and exactly 2 requests were issued. -/
theorem c4_partial_failure_stops_witness :
    getAllSubscriptions (pagesEnv c4Pages 500) 5
      = some (collectAll c4Pages, c4Pages.length + 1) :=
  c4_partial_failure_stops c4Pages (pagesEnv c4Pages 500) 5 500
    (by intro j r hj t
        rw [List.get?_eq_getElem?] at hj
        simp [pagesEnv, hj])
    (by intro t; rfl)
    (by decide)
    (by decide)

/-- C5: the enumeration loop does NOT detect a repeated continuation
token.  Against a provider that answers every request successfully with
the same truthy token, the loop is still running after `fuel` iterations
for EVERY bound `fuel`: `getAllSubscriptions` does not terminate on this
input stream, contradicting the claim that a repeated token is treated
as an error condition and enumeration stops. -/
theorem c5_enumeration_diverges_on_repeated_token (fuel : Nat) :
    getAllSubscriptions repeatTokenEnv fuel = none :=
  runLoop_repeatToken_none fuel 0 none []

/-- C9: a successfully fetched page whose body lacks the `items` array
contributes a single `undefined` element to the accumulated sequence
(`concat(undefined)` appends one element instead of skipping the page),
and the Replicator, handed such a sequence, dereferences the `undefined`
entry and produces no normal completion. -/
theorem c9_missing_items_appends_undefined
    (env : Nat → Option String → FetchResult) (fuel : Nat)
    (outcome : Nat → Bool) (order : List Nat)
    (henv : env 0 none = FetchResult.ok noItemsPage)
    (hfuel : 0 < fuel) :
    getAllSubscriptions env fuel = some ([none], 1)
      ∧ loginDestination outcome [none] order = none := by
  constructor
  · obtain ⟨f, rfl⟩ : ∃ f, fuel = f + 1 := ⟨fuel - 1, by omega⟩
    have hreq : requestTok none = none := rfl
    simp [getAllSubscriptions, runLoop, hreq, henv, noItemsPage, concatItems, strTruthy]
  · simp [loginDestination]

/-- C9 witness at a concrete single-page stream lacking `items`. -/
theorem c9_missing_items_appends_undefined_witness :
    getAllSubscriptions (pagesEnv [noItemsPage] 404) 1 = some ([none], 1)
      ∧ loginDestination (fun _ => true) [none] [0] = none :=
  c9_missing_items_appends_undefined (pagesEnv [noItemsPage] 404) 1
    (fun _ => true) [0] (by rfl) (by decide)

/-- C1: a callback whose `code` is missing or not a single string value,
or whose `state` is absent or not strictly equal to the currently active
anti-forgery token, is answered with one of the two failure messages and
the returned state is exactly the old one: phase and subscription
sequence unchanged, and the effect list holds no token-exchange request,
no enumeration and no replication. -/
theorem c1_invalid_callback_rejected_unchanged
    (env : CallbackEnv) (s : SysState) (req : CallbackRequest)
    (h : codeMissingOrNotString req.code = true
          ∨ stateRejected req.state s.oauthState = true) :
    handleCallback env s req = some (s, [Effect.respond tryAgainMsg])
      ∨ handleCallback env s req = some (s, [Effect.respond invalidStateMsg]) := by
  match hcq : req.code with
  | none =>
    left
    simp [handleCallback, hcq]
  | some (QueryVal.arr l) =>
    left
    simp [handleCallback, hcq]
  | some (QueryVal.str c) =>
    rcases h with h | h
    · rw [hcq] at h
      simp [codeMissingOrNotString] at h
    · by_cases hce : c = ""
      · left
        simp [handleCallback, hcq, hce]
      · right
        have hcb : (c == "") = false := by simpa using hce
        unfold stateRejected at h
        simp [handleCallback, hcq, hcb, h]

/-- C1 witness: a callback with no `code` at all, and one with a good
code but a wrong `state`, both rejected without touching the state. -/
theorem c1_invalid_callback_rejected_unchanged_witness :
    (handleCallback emptySourceEnv initState { code := none, state := none }
        = some (initState, [Effect.respond tryAgainMsg])
      ∨ handleCallback emptySourceEnv initState { code := none, state := none }
        = some (initState, [Effect.respond invalidStateMsg]))
      ∧ (handleCallback emptySourceEnv initState
            { code := some (QueryVal.str "abc"), state := some (QueryVal.str "wrong") }
          = some (initState, [Effect.respond tryAgainMsg])
        ∨ handleCallback emptySourceEnv initState
            { code := some (QueryVal.str "abc"), state := some (QueryVal.str "wrong") }
          = some (initState, [Effect.respond invalidStateMsg])) :=
  ⟨c1_invalid_callback_rejected_unchanged emptySourceEnv initState
      { code := none, state := none } (Or.inl (by decide)),
   c1_invalid_callback_rejected_unchanged emptySourceEnv initState
      { code := some (QueryVal.str "abc"), state := some (QueryVal.str "wrong") }
      (Or.inr (by decide))⟩

/-- C10: a callback whose `state` parameter appears more than once is
parsed as an array of strings; the strict comparison of that array
against the token string never succeeds, so the request is rejected with
the invalid-state response even when one of the repeated values equals
the currently active anti-forgery token, and the state is unchanged. -/
theorem c10_array_state_rejected
    (env : CallbackEnv) (s : SysState) (req : CallbackRequest)
    (c : String) (l : List String)
    (hcode : req.code = some (QueryVal.str c)) (hc : c ≠ "")
    (hstate : req.state = some (QueryVal.arr l)) (hmem : s.oauthState ∈ l) :
    handleCallback env s req = some (s, [Effect.respond invalidStateMsg]) := by
  have hcb : (c == "") = false := by simpa using hc
  simp [handleCallback, hcode, hcb, hstate, queryTruthy, stateValEq]

/-- C10 witness: `state` repeated twice, both copies equal to the active
token, still rejected. -/
theorem c10_array_state_rejected_witness :
    handleCallback emptySourceEnv initState
        { code := some (QueryVal.str "abc")
        , state := some (QueryVal.arr [initState.oauthState, initState.oauthState]) }
      = some (initState, [Effect.respond invalidStateMsg]) :=
  c10_array_state_rejected emptySourceEnv initState
    { code := some (QueryVal.str "abc")
    , state := some (QueryVal.arr [initState.oauthState, initState.oauthState]) }
    "abc" [initState.oauthState, initState.oauthState]
    rfl (by decide) rfl (by decide)

/-- C7: `startLogin` regenerates the anti-forgery token before each
authorization redirect; afterwards every callback bearing the previous
token value is rejected by the state check even if it carries a valid,
well-formed code.  `s.oauthState = uuidStr j` with `j < s.nonce` says the
old token is one the program generated earlier (every `uuid()` output is
fresh). -/
theorem c7_regenerated_token_invalidates_old
    (env : CallbackEnv) (s : SysState) (req : CallbackRequest) (j : Nat) (c : String)
    (hold : s.oauthState = uuidStr j) (hj : j < s.nonce)
    (hcode : req.code = some (QueryVal.str c)) (hc : c ≠ "")
    (hstate : req.state = some (QueryVal.str s.oauthState)) :
    handleCallback env (startLoginStep s).1 req
      = some ((startLoginStep s).1, [Effect.respond invalidStateMsg]) := by
  have hcb : (c == "") = false := by simpa using hc
  have hne : (s.oauthState == uuidStr s.nonce) = false := by
    rw [hold]
    simpa using uuidStr_ne_of_lt hj
  have htr : (s.oauthState != "") = true := by
    rw [hold]
    simpa using uuidStr_ne_empty j
  simp [handleCallback, hcode, hcb, hstate, startLoginStep, queryTruthy, stateValEq,
    hne, htr]

/-- C7 witness: from the initial state, regenerate the token and replay
the initial token in an otherwise well-formed callback. -/
theorem c7_regenerated_token_invalidates_old_witness :
    handleCallback emptySourceEnv (startLoginStep initState).1
        { code := some (QueryVal.str "abc")
        , state := some (QueryVal.str initState.oauthState) }
      = some ((startLoginStep initState).1, [Effect.respond invalidStateMsg]) :=
  c7_regenerated_token_invalidates_old emptySourceEnv initState
    { code := some (QueryVal.str "abc")
    , state := some (QueryVal.str initState.oauthState) }
    0 "abc" rfl (by decide) rfl (by decide) rfl

/-- C6: a valid source-phase callback whose enumeration yields zero
subscriptions ends with exit status 1; the effect list holds no
destination prompt and no authorization-URL open, and the resulting
state keeps the source phase and the same anti-forgery token (no
regeneration). -/
theorem c6_empty_enumeration_fatal
    (env : CallbackEnv) (s : SysState) (req : CallbackRequest)
    (c tok : String) (n : Nat)
    (hphase : s.applicationState = ApplicationState.login_source)
    (hcode : req.code = some (QueryVal.str c)) (hc : c ≠ "")
    (hstate : req.state = some (QueryVal.str s.oauthState)) (htok : s.oauthState ≠ "")
    (hexch : env.exchange c = some tok)
    (henum : getAllSubscriptions env.pages env.enumFuel = some ([], n)) :
    handleCallback env s req
      = some ({ s with subscriptions := [] },
          [Effect.exchangeReq c, Effect.enumerate, Effect.respond checkTerminalMsg,
           Effect.exit 1]) := by
  have hcb : (c == "") = false := by simpa using hc
  have htr : (s.oauthState != "") = true := by simpa using htok
  simp [handleCallback, hcode, hcb, hstate, queryTruthy, stateValEq, htr, hexch,
    hphase, henum]

/-- C6 witness: initial state, valid callback, enumeration sees a single
empty page: exit status 1, no prompt, no URL opened, token unchanged. -/
theorem c6_empty_enumeration_fatal_witness :
    handleCallback emptySourceEnv initState
        { code := some (QueryVal.str "abc")
        , state := some (QueryVal.str initState.oauthState) }
      = some ({ initState with subscriptions := [] },
          [Effect.exchangeReq "abc", Effect.enumerate, Effect.respond checkTerminalMsg,
           Effect.exit 1]) :=
  c6_empty_enumeration_fatal emptySourceEnv initState
    { code := some (QueryVal.str "abc")
    , state := some (QueryVal.str initState.oauthState) }
    "abc" "token" 1 rfl rfl (by decide) rfl (by decide) rfl (by decide)

theorem handleCallback_dest_frame
    (env : CallbackEnv) (s : SysState) (req : CallbackRequest)
    (hphase : s.applicationState = ApplicationState.login_destination) :
    ∀ s2 fx, handleCallback env s req = some (s2, fx) → s2 = s := by
  intro s2 fx h
  simp only [handleCallback, hphase] at h
  repeat' split at h
  all_goals simp_all

theorem runTrace_dest_frame
    (evs : List (CallbackEnv × CallbackRequest)) :
    ∀ s s2, s.applicationState = ApplicationState.login_destination →
      runTrace s evs = some s2 → s2 = s := by
  induction evs with
  | nil =>
    intro s s2 _ ht
    have h2 : some s = some s2 := ht
    exact (Option.some.inj h2).symm
  | cons e rest ih =>
    intro s s2 hphase ht
    simp only [runTrace] at ht
    cases hstep : stepState s e with
    | none => rw [hstep] at ht; cases ht
    | some s1 =>
      rw [hstep] at ht
      have hs1 : s1 = s := by
        unfold stepState at hstep
        cases hcb : handleCallback e.1 s e.2 with
        | none => rw [hcb] at hstep; cases hstep
        | some p =>
          rw [hcb] at hstep
          have hp1 : p.1 = s1 := Option.some.inj (by simpa using hstep)
          rw [← hp1]
          exact handleCallback_dest_frame e.1 s e.2 hphase p.1 p.2 (by rw [hcb])
      rw [hs1] at ht
      exact ih s s2 hphase ht

/-- C8: a valid callback accepted while the phase is AwaitingDestination
whose code exchanges successfully invokes the Replicator exactly once
(the effect list holds exactly one `replicate`), and the sequence it is
handed is exactly the one captured when the source-phase callback
transitioned the machine to the destination phase, unchanged by every
callback processed in between. -/
theorem c8_destination_replicates_captured_sequence
    (s0 : SysState) (env0 : CallbackEnv) (req0 : CallbackRequest)
    (s1 : SysState) (fx0 : List Effect)
    (evs : List (CallbackEnv × CallbackRequest)) (s2 : SysState)
    (env : CallbackEnv) (req : CallbackRequest) (c tok : String)
    (hphase0 : s0.applicationState = ApplicationState.login_source)
    (hcap : handleCallback env0 s0 req0 = some (s1, fx0))
    (hphase1 : s1.applicationState = ApplicationState.login_destination)
    (htrace : runTrace s1 evs = some s2)
    (hcode : req.code = some (QueryVal.str c)) (hc : c ≠ "")
    (hstate : req.state = some (QueryVal.str s2.oauthState)) (htok : s2.oauthState ≠ "")
    (hexch : env.exchange c = some tok) :
    handleCallback env s2 req
      = some (s2, [Effect.exchangeReq c, Effect.replicate s1.subscriptions,
          Effect.respond checkTerminalMsg]) := by
  have hs2 : s2 = s1 := runTrace_dest_frame evs s1 s2 hphase1 htrace
  subst hs2
  have hcb : (c == "") = false := by simpa using hc
  have htr : (s2.oauthState != "") = true := by simpa using htok
  simp [handleCallback, hcode, hcb, hstate, queryTruthy, stateValEq, htr, hexch,
    hphase1]

/-- C8 witness: from the initial state a valid source callback captures
one subscription and transitions to the destination phase; one rejected
callback happens in between; the valid destination callback then emits
exactly one `replicate` carrying that captured sequence. -/
theorem c8_destination_replicates_captured_sequence_witness :
    handleCallback oneSubEnv c8DestState
        { code := some (QueryVal.str "xyz")
        , state := some (QueryVal.str c8DestState.oauthState) }
      = some (c8DestState,
          [Effect.exchangeReq "xyz", Effect.replicate c8DestState.subscriptions,
           Effect.respond checkTerminalMsg]) :=
  c8_destination_replicates_captured_sequence
    initState oneSubEnv
    { code := some (QueryVal.str "abc"), state := some (QueryVal.str initState.oauthState) }
    c8DestState
    [Effect.exchangeReq "abc", Effect.enumerate, Effect.respond checkTerminalMsg,
     Effect.promptDestination, Effect.openAuthUrl (uuidStr 1)]
    [(emptySourceEnv, { code := none, state := none })]
    c8DestState oneSubEnv
    { code := some (QueryVal.str "xyz")
    , state := some (QueryVal.str c8DestState.oauthState) }
    "xyz" "token"
    rfl (by decide) rfl (by decide) rfl (by decide) rfl (by decide) rfl

/-- C2: for every list of N collected subscriptions the Replicator
issues one creation request per subscription (`reqs.length = N`), lets
the requests settle in ANY order, classifies each solely by HTTP
success, emits exactly one per-item notice per subscription (the notice
sequence is a permutation of one notice per index, each naming the
channel title), signals completion exactly once and only after all N
notices (`done` is the single last log entry), and exits with status 0
however many items failed. -/
theorem c2_replicator_settles_all
    (subs : List (Option SubscriptionSnippet)) (outcome : Nat → Bool)
    (order : List Nat)
    (hdef : ∀ x ∈ subs, x.isSome)
    (hperm : order.Perm (List.range subs.length)) :
    ∃ reqs logs,
      loginDestination outcome subs order = some (reqs, logs, 0)
        ∧ reqs.length = subs.length
        ∧ logs.length = subs.length + 1
        ∧ logs.getLast? = some RepLog.done
        ∧ logs.countP (fun l => l == RepLog.done) = 1
        ∧ logs.dropLast.Perm
            ((List.range subs.length).filterMap (itemNotice outcome subs)) := by
  have hall : subs.all Option.isSome = true := by
    rw [List.all_eq_true]
    exact hdef
  have hld : loginDestination outcome subs order
      = some (subs.filterMap (fun o => o.map subscribeChannelBody),
          order.filterMap (itemNotice outcome subs) ++ [RepLog.done], 0) := by
    simp [loginDestination, hall]
  have hnot : ∀ i ∈ order, (itemNotice outcome subs i).isSome := by
    intro i hi
    have hiN : i < subs.length := by
      have hmem := hperm.subset hi
      simpa [List.mem_range] using hmem
    obtain ⟨x, hx⟩ : ∃ x, subs.get? i = some x := by
      rw [List.get?_eq_getElem?]
      exact ⟨_, List.getElem?_eq_getElem hiN⟩
    have hxm : x ∈ subs := List.get?_mem hx
    have hx2 : subs[i]? = some x := by
      rw [← List.get?_eq_getElem?]
      exact hx
    obtain ⟨sub, rfl⟩ := Option.isSome_iff_exists.mp (hdef x hxm)
    simp [itemNotice, hx2]
  have hlen1 : (order.filterMap (itemNotice outcome subs)).length = order.length :=
    length_filterMap_of_isSome _ order hnot
  have hlen2 : order.length = subs.length := by
    simpa using hperm.length_eq
  refine ⟨_, _, hld, ?_, ?_, ?_, ?_, ?_⟩
  · apply length_filterMap_of_isSome
    intro a ha
    obtain ⟨sub, rfl⟩ := Option.isSome_iff_exists.mp (hdef a ha)
    simp
  · simp [hlen1, hlen2]
  · rw [List.getLast?_concat]
  · rw [List.countP_append]
    have h0 : (order.filterMap (itemNotice outcome subs)).countP
        (fun l => l == RepLog.done) = 0 := by
      rw [List.countP_eq_zero]
      intro a ha
      obtain ⟨i, _, hit⟩ := List.mem_filterMap.mp ha
      unfold itemNotice at hit
      split at hit
      next sub heq =>
        have ha2 : a = if outcome i then RepLog.subscribed sub.title
            else RepLog.failed sub.title := (Option.some.inj hit).symm
        subst ha2
        by_cases ho : outcome i <;> simp [ho]
      next => cases hit
    simp [h0]
  · rw [List.dropLast_concat]
    exact hperm.filterMap _

/-- C2 witness: five subscriptions, the first two succeed, the other
three fail, settling in the order 3,0,4,2,1. -/
theorem c2_replicator_settles_all_witness :
    ∃ reqs logs,
      loginDestination (fun i => decide (i < 2)) c2Subs [3, 0, 4, 2, 1]
          = some (reqs, logs, 0)
        ∧ reqs.length = c2Subs.length
        ∧ logs.length = c2Subs.length + 1
        ∧ logs.getLast? = some RepLog.done
        ∧ logs.countP (fun l => l == RepLog.done) = 1
        ∧ logs.dropLast.Perm
            ((List.range c2Subs.length).filterMap
              (itemNotice (fun i => decide (i < 2)) c2Subs)) :=
  c2_replicator_settles_all c2Subs (fun i => decide (i < 2)) [3, 0, 4, 2, 1]
    (by decide) (by decide)

end YtSync
